import Mathlib

/-!
Shallow embedding of the build tracer / compiler-call reconstructor
(`build-tracer-rpmbuild.py`).  Python data classes become Lean structures,
the dynamically typed syscall argument lists become a tagged union, Python
exceptions (KeyError, IndexError, ValueError, AssertionError,
NotImplementedError) become `Except String`.  Dotted version strings are
embedded as the lists of naturals obtained by `v.split "."` + `int`, which
is the only way the program ever consumes them.  Float timestamps (decimal
literals in the trace files) are embedded as rationals.
-/

set_option maxHeartbeats 1000000

deriving instance DecidableEq for Except

-- ------------------------------------------------------------------
-- Language parameters (class Language)

inductive FileType where
  | source
  | header
  | module
deriving DecidableEq

inductive LangId where
  | c
  | cxx
deriving DecidableEq

/-- The extension table `Language.source_exts`, as an association list in
source order: extension, file type, language list. -/
def source_exts : List (String × FileType × List LangId) :=
  [ (".c"   , FileType.source, [LangId.c]),
    (".h"   , FileType.header, [LangId.c, LangId.cxx]),
    (".C"   , FileType.source, [LangId.cxx]),
    (".c++" , FileType.source, [LangId.cxx]),
    (".cc"  , FileType.source, [LangId.cxx]),
    (".cpp" , FileType.source, [LangId.cxx]),
    (".cxx" , FileType.source, [LangId.cxx]),
    (".H"   , FileType.header, [LangId.cxx]),
    (".h++" , FileType.header, [LangId.cxx]),
    (".hh"  , FileType.header, [LangId.cxx]),
    (".hpp" , FileType.header, [LangId.cxx]),
    (".hxx" , FileType.header, [LangId.cxx]),
    (".ipp" , FileType.header, [LangId.cxx]),
    (".cppm", FileType.module, [LangId.cxx]),
    (".ixx" , FileType.module, [LangId.cxx]) ]

/-- Dictionary lookup `Language.source_exts.get(ext)`. -/
def lookupExt (ext : String) : Option (FileType × List LangId) :=
  (source_exts.find? (fun p => p.1 = ext)).map (fun p => p.2)

-- ------------------------------------------------------------------
-- os.path.splitext, restricted to the extension component.
-- Python: the extension is everything from the last dot of the final
-- path component, provided that dot is preceded (within the component)
-- by at least one character that is not a leading dot.

/-- Last path component (characters after the last slash). -/
def baseNameChars (s : List Char) : List Char :=
  (s.reverse.takeWhile (fun c => c ≠ '/')).reverse

/-- Extension of one path component, following `posixpath.splitext`:
leading dots never start an extension. -/
def splitextExtChars (base : List Char) : List Char :=
  let pre := base.takeWhile (fun c => c = '.')
  let rest := base.drop pre.length
  if rest.contains '.' then
    '.' :: (rest.reverse.takeWhile (fun c => c ≠ '.')).reverse
  else []

/-- `os.path.splitext(s)[1]`. -/
def splitextExt (s : String) : String :=
  String.mk (splitextExtChars (baseNameChars s.data))

-- ------------------------------------------------------------------
-- Substring test used for the Python expression `'++' in s`.

def hasPlusPlusChars : List Char → Bool
  | '+' :: '+' :: _ => true
  | _ :: rest => hasPlusPlusChars rest
  | [] => false

/-- Python `'++' in s`. -/
def hasPlusPlus (s : String) : Bool := hasPlusPlusChars s.data

-- ------------------------------------------------------------------
-- Compiler identity and commands

/-- `CompilerId`: canonical compiler identity.  `version` is the parsed
dotted-integer tuple. -/
structure CompilerId where
  id : String
  like : Option String
  version : List Nat
deriving DecidableEq

/-- `CompilerId.ids()`. -/
def CompilerId.ids (c : CompilerId) : List String :=
  match c.like with
  | none => [c.id]
  | some l => [c.id, l]

-- A pathlib PurePosixPath: an absolute flag plus the retained components.
-- pathlib drops empty components and single dots but keeps double dots.
structure PyPath where
  root : Bool
  parts : List String
deriving DecidableEq

/-- Split a character list on a separator character. -/
def splitChar (c : Char) : List Char → List (List Char)
  | [] => [[]]
  | x :: xs =>
    match splitChar c xs with
    | [] => [[x]]
    | g :: gs => if x = c then [] :: g :: gs else (x :: g) :: gs

/-- Python `Path(s)` for a POSIX path string. -/
def parsePath (s : String) : PyPath :=
  let comps := (splitChar '/' s.data).map (fun l => String.mk l)
  { root := match s.data with
      | '/' :: _ => true
      | _ => false,
    parts := comps.filter (fun c => c ≠ "" && c ≠ ".") }

/-- Python `a / b` on paths: an absolute right operand replaces the left
operand entirely, otherwise the parts are concatenated. -/
def joinPath (a b : PyPath) : PyPath :=
  if b.root then b else { root := a.root, parts := a.parts ++ b.parts }

/-- `CompilerCommand`. -/
structure CompilerCommand where
  cwd : PyPath
  compiler : CompilerId
  executable : String
  args : List String
deriving DecidableEq

/-- `CompilerCommand.as_tuple()` (the dedup-counting key). -/
def CompilerCommand.asTuple (c : CompilerCommand) :
    PyPath × CompilerId × String × List String :=
  (c.cwd, c.compiler, c.executable, c.args)

/-- `SourceFileCompilerMetadata`. -/
structure SourceFileCompilerMetadata where
  lang : LangId
  standard : String
deriving DecidableEq

-- ------------------------------------------------------------------
-- CompilerMatcher.version_compare

/-- Zero-padding of a version tuple to length `n`. -/
def versionPad (t : List Nat) (n : Nat) : List Nat :=
  t ++ List.replicate (n - t.length) 0

/-- Python tuple `<` on integer lists (lexicographic, shorter prefix is
smaller). -/
def lexLt : List Nat → List Nat → Bool
  | [], [] => false
  | [], _ :: _ => true
  | _ :: _, [] => false
  | x :: xs, y :: ys => x < y || (x = y && lexLt xs ys)

/-- Three-way comparison of two equal-length integer tuples (the final
`==` / `<` / else of `version_compare`). -/
def cmpTuples (u v : List Nat) : Int :=
  if u = v then 0 else if lexLt u v then -1 else 1

/-- `CompilerMatcher.version_compare` after `versiontuple` parsing: pad
both tuples with zeros to the longer length, then compare. -/
def version_compare (a b : List Nat) : Int :=
  let m := max a.length b.length
  cmpTuples (versionPad a m) (versionPad b m)

-- ------------------------------------------------------------------
-- Default-standard and -ansi tables

/-- One row of a `CompilerMatcher.__std_default` table. -/
structure StdRow where
  minv : Option (List Nat)
  cstd : String
  cxxstd : String
deriving DecidableEq

/-- Row lookup by language (`row[1][lang]`). -/
def StdRow.std (r : StdRow) : LangId → String
  | LangId.c => r.cstd
  | LangId.cxx => r.cxxstd

/-- `CompilerMatcher.__std_default`. -/
def std_default : List (String × List StdRow) :=
  [ ("lcc",
      [ ⟨none, "gnu18", "gnu++14"⟩,
        ⟨some [1, 28, 0], "gnu18", "gnu++17"⟩ ]),
    ("gcc",
      [ ⟨none, "gnu90", "gnu++98"⟩,
        ⟨some [5, 0, 0], "gnu11", "gnu++98"⟩,
        ⟨some [6, 0, 0], "gnu11", "gnu++14"⟩,
        ⟨some [11, 0, 0], "gnu17", "gnu++17"⟩,
        ⟨some [15, 0, 0], "gnu23", "gnu++17"⟩ ]),
    ("clang",
      [ ⟨none, "gnu99", "gnu++98"⟩,
        ⟨some [3, 6, 0], "gnu11", "gnu++98"⟩,
        ⟨some [6, 0, 0], "gnu11", "gnu++14"⟩,
        ⟨some [11, 0, 0], "gnu17", "gnu++14"⟩,
        ⟨some [16, 0, 0], "gnu17", "gnu++17"⟩ ]) ]

/-- Rows of the default table for a compiler id. -/
def defaultRows (cid : String) : Option (List StdRow) :=
  (std_default.find? (fun p => p.1 = cid)).map (fun p => p.2)

/-- The descending scan of `get_default_std`: walk the rows from the last
one towards the first; stop (and fall back to the first row) at a row with
no min-version; return the standard of the first row whose min-version
compares `<= 0` against the compiler version.  Takes the row list already
reversed. -/
def defaultScanRev (ver : List Nat) (lang : LangId) : List StdRow → Option String
  | [] => none
  | r :: rest =>
    match r.minv with
    | none => none
    | some m =>
      if version_compare m ver ≤ 0 then some (r.std lang)
      else defaultScanRev ver lang rest

/-- `CompilerMatcher.get_default_std`.  `KeyError` on an unknown compiler
id becomes `Except.error`. -/
def get_default_std (c : CompilerId) (lang : LangId) : Except String String :=
  match defaultRows c.id with
  | none => Except.error "KeyError"
  | some rows =>
    match rows with
    | [] => Except.error "IndexError: list index out of range"
    | r0 :: _ =>
      Except.ok ((defaultScanRev c.version lang rows.reverse).getD (r0.std lang))

/-- Modelled from the claim text for C4 (the specification side of the
refinement): the returned standard belongs to the table row with the
greatest min-version that is at most the given version; when no versioned
row qualifies it is that of the first (unversioned) row. -/
def defaultStdSpec (rows : List StdRow) (ver : List Nat) (lang : LangId)
    (s : String) : Prop :=
  (∃ r ∈ rows, ∃ m, r.minv = some m ∧ version_compare m ver ≤ 0 ∧
      s = r.std lang ∧
      ∀ r2 ∈ rows, ∀ m2, r2.minv = some m2 → version_compare m2 ver ≤ 0 →
        version_compare m2 m ≤ 0)
  ∨ ((∀ r ∈ rows, ∀ m, r.minv = some m → ¬ version_compare m ver ≤ 0) ∧
     ∃ r0, rows.head? = some r0 ∧ s = r0.std lang)

/-- `CompilerMatcher.__std_ansi`. -/
def std_ansi : List (String × List (LangId × String)) :=
  [ ("lcc", [(LangId.c, "c89"), (LangId.cxx, "c++98")]),
    ("gcc", [(LangId.c, "c90"), (LangId.cxx, "c++98")]),
    ("clang", [(LangId.c, "c89")]) ]

/-- `CompilerMatcher.get_ansi_std`: may return `none` when `-ansi` is not
supported for the language; `KeyError` on an unknown id. -/
def get_ansi_std (c : CompilerId) (lang : LangId) : Except String (Option String) :=
  match std_ansi.find? (fun p => p.1 = c.id) with
  | none => Except.error "KeyError"
  | some p => Except.ok ((p.2.find? (fun q => q.1 = lang)).map (fun q => q.2))

-- ------------------------------------------------------------------
-- CompilerMatcher.get_sources_from_args and get_source_metadata

/-- `CompilerMatcher.get_sources_from_args`: every argument whose
extension is a SOURCE extension. -/
def get_sources_from_args (cmd : CompilerCommand) : List String :=
  cmd.args.filter (fun arg =>
    match lookupExt (splitextExt arg) with
    | some (FileType.source, _) => true
    | _ => false)

/-- Value of the regex `^-?-std=(?P<std>.*)$` on one argument. -/
def stdArgValue (arg : String) : Option String :=
  if "-std=".data.isPrefixOf arg.data then some (String.mk (arg.data.drop 5))
  else if "--std=".data.isPrefixOf arg.data then some (String.mk (arg.data.drop 6))
  else none

/-- The `-std` scan loop of `get_source_metadata` (lines 375-381):
first `-std=`/`--std=` value, or the argument following a bare `--std`;
indexing `args[i+1]` past the end is an `IndexError`. -/
def findStd : List String → Except String (Option String)
  | [] => Except.ok none
  | a :: rest =>
    match stdArgValue a with
    | some v => Except.ok (some v)
    | none =>
      if a = "--std" then
        match rest with
        | v :: _ => Except.ok (some v)
        | [] => Except.error "IndexError: list index out of range"
      else findStd rest

/-- `CompilerMatcher.get_source_metadata`. -/
def get_source_metadata (cmd : CompilerCommand) (source : String) :
    Except String SourceFileCompilerMetadata :=
  match findStd cmd.args with
  | Except.error e => Except.error e
  | Except.ok std =>
    let std_lang : Option LangId :=
      std.map (fun v => if hasPlusPlus v then LangId.cxx else LangId.c)
    match cmd.args with
    | [] => Except.error "IndexError: list index out of range"
    | arg0 :: _ =>
      let frontend_lang : LangId :=
        if hasPlusPlus arg0 then LangId.cxx else LangId.c
      match lookupExt (splitextExt source) with
      | none => Except.error "KeyError"
      | some ext_meta =>
        match ext_meta.2 with
        | [] => Except.error "IndexError: list index out of range"
        | file_lang :: _ =>
          if ext_meta.1 ≠ FileType.source then Except.error "AssertionError"
          else
            let ret_lang : LangId :=
              if frontend_lang = LangId.cxx then LangId.cxx else file_lang
            let ret_std : Option String :=
              match std_lang with
              | some sl => if sl ≠ ret_lang then none else std
              | none => std
            let ret_std2 : Except String (Option String) :=
              if ret_std.isNone && std.isNone && cmd.args.contains "-ansi" then
                get_ansi_std cmd.compiler ret_lang
              else Except.ok ret_std
            match ret_std2 with
            | Except.error e => Except.error e
            | Except.ok r =>
              match r with
              | some s => Except.ok ⟨ret_lang, s⟩
              | none =>
                match get_default_std cmd.compiler ret_lang with
                | Except.error e => Except.error e
                | Except.ok d => Except.ok ⟨ret_lang, d⟩

-- ------------------------------------------------------------------
-- CompilerMatcher.make_preprocessor_command

/-- The supported preprocessor families. -/
def preprocessor_ids : List String := ["lcc", "gcc", "clang"]

/-- `CompilerMatcher.make_preprocessor_command`: drop the discovered
sources from the argument list, splice `-E -o <result>` over the first
`-o <path>` window (or insert it after `argv[0]`), and append the selected
source.  Raises when `-E` is already present or when no compiler family is
supported. -/
def make_preprocessor_command (cmd : CompilerCommand) (resultFile : String)
    (sourceIdx : Nat) (sources : List String) : Except String CompilerCommand :=
  let args1 := cmd.args.filter (fun a => !(sources.contains a))
  let o_idx := args1.findIdx? (fun a => a = "-o")
  match cmd.compiler.ids.find? (fun i => preprocessor_ids.contains i) with
  | none => Except.error "unknown compiler, inconsistency CompilerMatcher"
  | some _ =>
    if args1.contains "-E" then Except.error "-E already present in args"
    else
      let e_args := ["-E", "-o", resultFile]
      let args2 :=
        match o_idx with
        | some i => args1.take i ++ e_args ++ args1.drop (i + 2)
        | none => args1.take 1 ++ e_args ++ args1.drop 1
      match sources[sourceIdx]? with
      | some s => Except.ok { cmd with args := args2 ++ [s] }
      | none => Except.error "IndexError: list index out of range"

-- ------------------------------------------------------------------
-- Syscall records and the strace parser
--
-- Regular-expression matching against the raw trace line is not embedded:
-- a line of the trace file is modelled as the result of the line grammar
-- (`StraceParser.regex_line` plus the per-syscall argument regexes), i.e.
-- either no match, or a timestamped killed/exited/syscall event whose
-- argument fields are already decoded.  Everything after the match -
-- timestamp bookkeeping, per-name argument storage, the success filter,
-- the final sort, the NotImplementedError on execveat - is embedded from
-- the source.

/-- One entry of the heterogeneous `SysCallEntity.args` list. -/
inductive SCArg where
  | str (s : String)
  | strList (l : List String)
  | fdPath (fd : Int) (path : String)
  | atFd (cwdfd : String) (path : Option String)
  | how (entries : List (String × String))
  | nullv
deriving DecidableEq

/-- `SysCallEntity`. -/
structure SysCallEntity where
  ts : Rat
  name : String
  returnvalue : Int
  returnfile : Option String
  error : Option (String × String)
  args_raw : Option String
  args : List SCArg
deriving DecidableEq

/-- `ProcTrace`. -/
structure ProcTrace where
  pid : Int
  ts_start : Option Rat
  ts_end : Option Rat
  exitcode : Option Int
  killedby : Option String
  syscall : List SysCallEntity
deriving DecidableEq

/-- `SysCallFilter.allow`: drop records of calls that failed. -/
def sysCallFilterAllow (sc : SysCallEntity) : Bool :=
  !(sc.returnvalue < 0)

/-- Decoded arguments of one matched syscall line, one variant per
argument grammar. -/
inductive ArgsPayload where
  | rawArgs (raw : String)
  | execveA (path : String) (argv : List String) (env : Option (List String))
      (envph : Option String)
  | chdirA (path : String)
  | fchdirA (fd : Int) (path : String)
  | openA (path : String) (oflag : String) (mode : Option String)
  | openatA (cwdfd : String) (cwd : Option String) (path : String)
      (oflag : String) (mode : Option String)
  | openat2A (cwdfd : String) (cwd : Option String) (path : String)
      (how : List (String × String)) (size : String)
deriving DecidableEq

/-- One line of a trace file, after the line grammar. -/
inductive StraceLine where
  | noMatch
  | killed (ts : Rat) (sig : String)
  | exited (ts : Rat) (code : Int)
  | syscall (ts : Rat) (name : String) (rv : Int) (returnfile : Option String)
      (err : Option (String × String)) (payload : ArgsPayload)
deriving DecidableEq

/-- Per-name argument storage of `StraceParser.parse_fd`: which fields of
the match end up in `args` / `args_raw`.  A payload that does not fit the
name models the `AttributeError` the source would raise on a failed
argument regex; `execveat` models the explicit `NotImplementedError`. -/
def decodeArgs (name : String) (p : ArgsPayload) :
    Except String (List SCArg × Option String) :=
  if name = "fork" ∨ name = "vfork" then
    match p with
    | ArgsPayload.rawArgs _ => Except.ok ([], none)
    | _ => Except.error "argument grammar mismatch"
  else if name = "clone" ∨ name = "clone2" ∨ name = "clone3" then
    match p with
    | ArgsPayload.rawArgs raw => Except.ok ([], some raw)
    | _ => Except.error "argument grammar mismatch"
  else if name = "execve" then
    match p with
    | ArgsPayload.execveA path argv env envph =>
      Except.ok ([SCArg.str path, SCArg.strList argv,
        match env with
        | some l => SCArg.strList l
        | none =>
          match envph with
          | some s => SCArg.str s
          | none => SCArg.nullv], none)
    | _ => Except.error "argument grammar mismatch"
  else if name = "execveat" then
    Except.error "NotImplementedError: Implement syscall parsing: execveat"
  else if name = "chdir" then
    match p with
    | ArgsPayload.chdirA path => Except.ok ([SCArg.str path], none)
    | _ => Except.error "argument grammar mismatch"
  else if name = "fchdir" then
    match p with
    | ArgsPayload.fchdirA fd path => Except.ok ([SCArg.fdPath fd path], none)
    | _ => Except.error "argument grammar mismatch"
  else if name = "open" then
    match p with
    | ArgsPayload.openA path oflag mode =>
      Except.ok ([SCArg.str path, SCArg.str oflag] ++
        (match mode with
         | some m => [SCArg.str m]
         | none => []), none)
    | _ => Except.error "argument grammar mismatch"
  else if name = "openat" then
    match p with
    | ArgsPayload.openatA cwdfd cwd path oflag mode =>
      Except.ok ([SCArg.atFd cwdfd cwd, SCArg.str path, SCArg.str oflag] ++
        (match mode with
         | some m => [SCArg.str m]
         | none => []), none)
    | _ => Except.error "argument grammar mismatch"
  else if name = "openat2" then
    match p with
    | ArgsPayload.openat2A cwdfd cwd path how size =>
      Except.ok ([SCArg.atFd cwdfd cwd, SCArg.str path, SCArg.how how,
        SCArg.str size], none)
    | _ => Except.error "argument grammar mismatch"
  else
    match p with
    | ArgsPayload.rawArgs raw => Except.ok ([], some raw)
    | _ => Except.error "argument grammar mismatch"

/-- Timestamp update for `proc.ts_start` (min). -/
def updStart (o : Option Rat) (v : Rat) : Option Rat :=
  match o with
  | none => some v
  | some x => some (min x v)

/-- Timestamp update for `proc.ts_end` (max). -/
def updEnd (o : Option Rat) (v : Rat) : Option Rat :=
  match o with
  | none => some v
  | some x => some (max x v)

/-- Timestamp order used for the final `proc.syscall.sort`. -/
def tsLE (a b : SysCallEntity) : Prop := a.ts ≤ b.ts

instance : DecidableRel tsLE := fun a b => inferInstanceAs (Decidable (a.ts ≤ b.ts))

instance : IsTotal SysCallEntity tsLE := ⟨fun a b => le_total a.ts b.ts⟩

instance : IsTrans SysCallEntity tsLE := ⟨fun _ _ _ h h2 => le_trans h h2⟩

/-- Line loop of `StraceParser.parse_fd`. -/
def parseLinesGo : List StraceLine → ProcTrace → Except String ProcTrace
  | [], proc => Except.ok proc
  | l :: rest, proc =>
    match l with
    | StraceLine.noMatch => parseLinesGo rest proc
    | StraceLine.killed ts sig =>
      parseLinesGo rest { proc with
        ts_start := updStart proc.ts_start ts,
        ts_end := updEnd proc.ts_end ts,
        killedby := some sig }
    | StraceLine.exited ts code =>
      parseLinesGo rest { proc with
        ts_start := updStart proc.ts_start ts,
        ts_end := updEnd proc.ts_end ts,
        exitcode := some code }
    | StraceLine.syscall ts name rv rfile err payload =>
      match decodeArgs name payload with
      | Except.error e => Except.error e
      | Except.ok (args, araw) =>
        let sc : SysCallEntity := ⟨ts, name, rv, rfile, err, araw, args⟩
        let proc2 := { proc with
          ts_start := updStart proc.ts_start ts,
          ts_end := updEnd proc.ts_end ts }
        if sysCallFilterAllow sc then
          parseLinesGo rest { proc2 with syscall := proc2.syscall ++ [sc] }
        else
          parseLinesGo rest proc2

/-- `StraceParser.parse_fd`: fold the matched lines, then sort the stored
records by timestamp. -/
def parse_fd (pid : Int) (lines : List StraceLine) : Except String ProcTrace :=
  match parseLinesGo lines ⟨pid, none, none, none, none, []⟩ with
  | Except.error e => Except.error e
  | Except.ok proc =>
    Except.ok { proc with syscall := proc.syscall.insertionSort tsLE }

-- ------------------------------------------------------------------
-- StraceData: root-pid selection
--
-- The store is modelled as the list of parsed traces in dictionary
-- insertion order (the order of the input file list; pids are distinct).
-- Python `min(..., key=lambda v: v.ts_start)` keeps the first element on
-- ties and raises TypeError when a None timestamp is compared.

/-- Python `min` with the `ts_start` key over `acc :: rest`. -/
def pyMinByTs : ProcTrace → List ProcTrace → Except String ProcTrace
  | acc, [] => Except.ok acc
  | acc, t :: ts =>
    match t.ts_start, acc.ts_start with
    | some kt, some ka => pyMinByTs (if kt < ka then t else acc) ts
    | _, _ => Except.error "TypeError: comparison with None"

/-- Root-pid selection of `StraceData.__run`: `ValueError` on an empty
store, else the pid of the trace minimizing `ts_start`. -/
def strace_root_pid (traces : List ProcTrace) : Except String Int :=
  match traces with
  | [] => Except.error "empty input file list"
  | t :: ts =>
    match pyMinByTs t ts with
    | Except.error e => Except.error e
    | Except.ok r => Except.ok r.pid

-- ------------------------------------------------------------------
-- CompilerExtractor: the process walker

/-- One attributed open-file record: the base path it was resolved
against, plus the stored syscall argument tail. -/
abbrev OpenRec := PyPath × List SCArg

/-- `CompilerCall`. -/
structure CompilerCall where
  pid : Int
  exitcode : Option Int
  command : CompilerCommand
  open_files : List OpenRec
deriving DecidableEq

/-- `CompilerExtractor.__fork_syscall_set`. -/
def fork_syscall_set : List String := ["fork", "vfork", "clone", "clone2", "clone3"]

/-- Association-list lookup standing for `proc_map[pid]`. -/
def lookupProc (m : List (Int × ProcTrace)) (pid : Int) : Option ProcTrace :=
  (m.find? (fun p => p.1 = pid)).map (fun p => p.2)

/-- Syscall loop of `CompilerExtractor.__walk_proc` for one process.
`recurse` is the recursive walk of a child pid (tied by `walkGo` below);
`callOpt` is the in-progress compiler call, `calls` the global result list
accumulated so far, `opens` the open-file accumulator.  Returns the final
`(compiler_calls, open_files)` pair of the walk. -/
def walkSys (recurse : Int → PyPath → Bool → Except String (List CompilerCall × List OpenRec))
    (procMap : List (Int × ProcTrace)) (procPid : Int) (procExit : Option Int)
    (matchC : String → List String → Option CompilerId) :
    List SysCallEntity → PyPath → Bool → Option CompilerCall →
    List CompilerCall → List OpenRec →
    Except String (List CompilerCall × List OpenRec)
  | [], _, _, callOpt, calls, opens =>
    match callOpt with
    | some call =>
      Except.ok (calls ++ [{ call with open_files := opens }], [])
    | none => Except.ok (calls, opens)
  | sc :: rest, cwd, inside, callOpt, calls, opens =>
    if fork_syscall_set.contains sc.name then
      if (lookupProc procMap sc.returnvalue).isSome then
        match recurse sc.returnvalue cwd inside with
        | Except.error e => Except.error e
        | Except.ok (calls2, opens2) =>
          walkSys recurse procMap procPid procExit matchC rest cwd inside callOpt
            (calls ++ calls2) (opens ++ opens2)
      else
        walkSys recurse procMap procPid procExit matchC rest cwd inside callOpt calls opens
    else if sc.name = "fchdir" then
      match sc.args with
      | SCArg.fdPath _ p :: _ =>
        walkSys recurse procMap procPid procExit matchC rest
          (joinPath cwd (parsePath p)) inside callOpt calls opens
      | _ => Except.error "fchdir argument shape"
    else if sc.name = "chdir" then
      match sc.args with
      | SCArg.str p :: _ =>
        walkSys recurse procMap procPid procExit matchC rest
          (joinPath cwd (parsePath p)) inside callOpt calls opens
      | _ => Except.error "chdir argument shape"
    else if sc.name = "execve" then
      if inside = false then
        match sc.args with
        | SCArg.str path :: SCArg.strList argv :: _ =>
          match matchC path argv with
          | some cid =>
            walkSys recurse procMap procPid procExit matchC rest cwd true
              (some ⟨procPid, procExit, ⟨cwd, cid, path, argv⟩, []⟩) calls opens
          | none =>
            walkSys recurse procMap procPid procExit matchC rest cwd inside callOpt calls opens
        | _ => Except.error "execve argument shape"
      else
        walkSys recurse procMap procPid procExit matchC rest cwd inside callOpt calls opens
    else if sc.name = "execveat" then
      Except.error "NotImplementedError: Implement syscall processing: execveat"
    else if sc.name = "open" then
      if inside ∧ 0 ≤ sc.returnvalue then
        walkSys recurse procMap procPid procExit matchC rest cwd inside callOpt calls
          (opens ++ [(cwd, sc.args)])
      else
        walkSys recurse procMap procPid procExit matchC rest cwd inside callOpt calls opens
    else if sc.name = "openat" then
      if inside ∧ 0 ≤ sc.returnvalue then
        match sc.args with
        | SCArg.atFd _ scCwd :: tailArgs =>
          let base : PyPath :=
            match scCwd with
            | some s => parsePath s
            | none => cwd
          walkSys recurse procMap procPid procExit matchC rest cwd inside callOpt calls
            (opens ++ [(base, tailArgs)])
        | _ => Except.error "openat argument shape"
      else
        walkSys recurse procMap procPid procExit matchC rest cwd inside callOpt calls opens
    else if sc.name = "openat2" then
      if inside ∧ 0 ≤ sc.returnvalue then
        match sc.args with
        | SCArg.atFd _ scCwd :: SCArg.str path :: SCArg.how how :: _ =>
          let base : PyPath :=
            match scCwd with
            | some s => parsePath s
            | none => cwd
          match (how.find? (fun q => q.1 = "flags")),
              (how.find? (fun q => q.1 = "mode")) with
          | some fl, some md =>
            walkSys recurse procMap procPid procExit matchC rest cwd inside callOpt calls
              (opens ++ [(base, [SCArg.str path, SCArg.str fl.2, SCArg.str md.2])])
          | _, _ => Except.error "KeyError"
        | _ => Except.error "openat2 argument shape"
      else
        walkSys recurse procMap procPid procExit matchC rest cwd inside callOpt calls opens
    else
      walkSys recurse procMap procPid procExit matchC rest cwd inside callOpt calls opens

/-- `CompilerExtractor.__walk_proc`, with an explicit recursion budget
(the Python recursion is bounded only by the interpreter stack; every
claim is settled at a sufficiently large budget). -/
def walkGo (matchC : String → List String → Option CompilerId)
    (procMap : List (Int × ProcTrace)) :
    Nat → Int → PyPath → Bool → Except String (List CompilerCall × List OpenRec)
  | 0, _, _, _ => Except.error "recursion limit"
  | fuel + 1, pid, cwd, inside =>
    match lookupProc procMap pid with
    | none => Except.error "KeyError"
    | some proc =>
      walkSys (walkGo matchC procMap fuel) procMap proc.pid proc.exitcode matchC
        proc.syscall cwd inside none [] []

-- ------------------------------------------------------------------
-- RpmbuildTracer.__compiler_calls_prefilter

/-- `RpmbuildTracer.__compiler_calls_prefilter`: keep the calls that
exited zero, opened at least one file, and whose canonical command tuple
occurs exactly once in the whole input list. -/
def compiler_calls_prefilter (calls : List CompilerCall) : List CompilerCall :=
  calls.filter (fun cc =>
    decide (cc.exitcode = some 0) &&
    !cc.open_files.isEmpty &&
    decide (calls.countP
      (fun c2 => decide (c2.command.asTuple = cc.command.asTuple)) = 1))

-- ==================================================================
-- Lemmas: the order underlying version_compare
-- ==================================================================

theorem lexLt_irrefl : ∀ u : List Nat, lexLt u u = false
  | [] => rfl
  | x :: xs => by simp [lexLt, lexLt_irrefl xs]

theorem lexLt_trans : ∀ u v w : List Nat,
    lexLt u v = true → lexLt v w = true → lexLt u w = true
  | [], [], _, h1, _ => by simp [lexLt] at h1
  | [], _ :: _, [], _, h2 => by simp [lexLt] at h2
  | [], _ :: _, _ :: _, _, _ => by simp [lexLt]
  | _ :: _, [], _, h1, _ => by simp [lexLt] at h1
  | _ :: _, _ :: _, [], _, h2 => by simp [lexLt] at h2
  | x :: xs, y :: ys, z :: zs, h1, h2 => by
    simp only [lexLt, Bool.or_eq_true, Bool.and_eq_true, decide_eq_true_eq] at h1 h2 ⊢
    rcases h1 with h1 | ⟨e1, r1⟩ <;> rcases h2 with h2 | ⟨e2, r2⟩
    · exact Or.inl (by omega)
    · exact Or.inl (by omega)
    · exact Or.inl (by omega)
    · exact Or.inr ⟨by omega, lexLt_trans xs ys zs r1 r2⟩

theorem lexLt_total : ∀ u v : List Nat,
    u = v ∨ lexLt u v = true ∨ lexLt v u = true
  | [], [] => Or.inl rfl
  | [], _ :: _ => Or.inr (Or.inl (by simp [lexLt]))
  | _ :: _, [] => Or.inr (Or.inr (by simp [lexLt]))
  | x :: xs, y :: ys => by
    rcases Nat.lt_trichotomy x y with h | h | h
    · exact Or.inr (Or.inl (by simp [lexLt, h]))
    · subst h
      rcases lexLt_total xs ys with h | h | h
      · exact Or.inl (by rw [h])
      · exact Or.inr (Or.inl (by simp [lexLt, h]))
      · exact Or.inr (Or.inr (by simp [lexLt, h]))
    · exact Or.inr (Or.inr (by simp [lexLt, h]))

theorem lexLt_asymm {u v : List Nat} (h : lexLt u v = true) : lexLt v u = false := by
  by_contra hne
  rw [Bool.not_eq_false] at hne
  have h2 := lexLt_trans u v u h hne
  rw [lexLt_irrefl] at h2
  exact Bool.false_ne_true h2

theorem lexLt_append_same : ∀ u v w : List Nat, u.length = v.length →
    lexLt (u ++ w) (v ++ w) = lexLt u v
  | [], [], w, _ => by simp [lexLt_irrefl, lexLt]
  | x :: xs, y :: ys, w, h => by
    have ih := lexLt_append_same xs ys w (by simpa using h)
    simp only [List.cons_append, lexLt, List.append_eq]
    rw [ih]
  | [], _ :: _, _, h => by simp at h
  | _ :: _, [], _, h => by simp at h

theorem versionPad_length (t : List Nat) (n : Nat) (h : t.length ≤ n) :
    (versionPad t n).length = n := by
  simp only [versionPad, List.length_append, List.length_replicate]
  omega

theorem versionPad_extend (t : List Nat) (m k : Nat) (h : t.length ≤ m) :
    versionPad t (m + k) = versionPad t m ++ List.replicate k 0 := by
  unfold versionPad
  have hc : m + k - t.length = (m - t.length) + k := by omega
  rw [hc, List.replicate_add, ← List.append_assoc]

theorem versionPad_append_zero (t : List Nat) (n : Nat) (h : t.length + 1 ≤ n) :
    versionPad (t ++ [0]) n = versionPad t n := by
  unfold versionPad
  have hl : (t ++ [0]).length = t.length + 1 := by simp
  rw [hl]
  have hc : n - t.length = (n - (t.length + 1)) + 1 := by omega
  rw [hc, List.replicate_succ, List.append_assoc, List.singleton_append]

theorem cmpTuples_append_replicate (u v : List Nat) (k : Nat)
    (h : u.length = v.length) :
    cmpTuples (u ++ List.replicate k 0) (v ++ List.replicate k 0) = cmpTuples u v := by
  simp only [cmpTuples, List.append_left_inj, lexLt_append_same u v _ h]

theorem version_compare_pad (a b : List Nat) (M : Nat)
    (h : max a.length b.length ≤ M) :
    version_compare a b = cmpTuples (versionPad a M) (versionPad b M) := by
  obtain ⟨k, rfl⟩ : ∃ k, M = max a.length b.length + k :=
    ⟨M - max a.length b.length, by omega⟩
  rw [versionPad_extend a _ k (le_max_left _ _),
    versionPad_extend b _ k (le_max_right _ _),
    cmpTuples_append_replicate _ _ k
      (by rw [versionPad_length a _ (le_max_left _ _),
        versionPad_length b _ (le_max_right _ _)])]
  rfl

theorem cmpTuples_le_zero_iff (u v : List Nat) :
    cmpTuples u v ≤ 0 ↔ (u = v ∨ lexLt u v = true) := by
  unfold cmpTuples
  by_cases h1 : u = v
  · rw [if_pos h1]
    simp [h1]
  · rw [if_neg h1]
    by_cases h2 : lexLt u v = true
    · rw [if_pos h2]
      simp [h1, h2]
    · rw [if_neg h2]
      constructor
      · intro h; omega
      · intro h
        rcases h with h | h
        · exact absurd h h1
        · exact absurd h h2

theorem version_compare_def (a b : List Nat) :
    version_compare a b =
      cmpTuples (versionPad a (max a.length b.length))
        (versionPad b (max a.length b.length)) := rfl

theorem cmpTuples_eq_zero_iff (u v : List Nat) : cmpTuples u v = 0 ↔ u = v := by
  unfold cmpTuples
  by_cases h1 : u = v
  · simp [h1]
  · rw [if_neg h1]
    by_cases h2 : lexLt u v = true
    · rw [if_pos h2]
      constructor
      · intro hx; omega
      · intro hx; exact absurd hx h1
    · rw [if_neg h2]
      constructor
      · intro hx; omega
      · intro hx; exact absurd hx h1

theorem cmpTuples_eq_negone_iff (u v : List Nat) :
    cmpTuples u v = -1 ↔ lexLt u v = true := by
  unfold cmpTuples
  by_cases h1 : u = v
  · subst h1
    rw [if_pos rfl]
    constructor
    · intro hx; omega
    · intro hx; rw [lexLt_irrefl] at hx; exact absurd hx (by simp)
  · rw [if_neg h1]
    by_cases h2 : lexLt u v = true
    · rw [if_pos h2]
      simp [h2]
    · rw [if_neg h2]
      constructor
      · intro hx; omega
      · intro hx; exact absurd hx h2

theorem cmpTuples_eq_one_iff (u v : List Nat) :
    cmpTuples u v = 1 ↔ lexLt v u = true := by
  unfold cmpTuples
  by_cases h1 : u = v
  · subst h1
    rw [if_pos rfl]
    constructor
    · intro hx; omega
    · intro hx; rw [lexLt_irrefl] at hx; exact absurd hx (by simp)
  · rw [if_neg h1]
    by_cases h2 : lexLt u v = true
    · rw [if_pos h2]
      constructor
      · intro hx; omega
      · intro hx; rw [lexLt_asymm h2] at hx; exact absurd hx (by simp)
    · rw [if_neg h2]
      have h3 : lexLt v u = true := by
        rcases lexLt_total u v with h | h | h
        · exact absurd h h1
        · exact absurd h h2
        · exact h
      simp [h3]

theorem cmpTuples_antisymm (u v : List Nat) : cmpTuples u v = -cmpTuples v u := by
  unfold cmpTuples
  by_cases h1 : u = v
  · subst h1; simp
  · have h1x : ¬ v = u := fun hx => h1 hx.symm
    rw [if_neg h1, if_neg h1x]
    by_cases h2 : lexLt u v = true
    · have h4 : ¬ lexLt v u = true := by rw [lexLt_asymm h2]; simp
      rw [if_pos h2, if_neg h4]
    · have h3 : lexLt v u = true := by
        rcases lexLt_total u v with h | h | h
        · exact absurd h h1
        · exact absurd h h2
        · exact h
      rw [if_neg h2, if_pos h3]
      decide

theorem version_compare_antisymm (a b : List Nat) :
    version_compare a b = -version_compare b a := by
  rw [version_compare_def a b, version_compare_def b a,
    Nat.max_comm b.length a.length]
  exact cmpTuples_antisymm _ _

theorem version_compare_trans_le (a b c : List Nat)
    (h1 : version_compare a b ≤ 0) (h2 : version_compare b c ≤ 0) :
    version_compare a c ≤ 0 := by
  have hab : max a.length b.length ≤ max a.length (max b.length c.length) :=
    max_le (le_max_left _ _) (le_trans (le_max_left _ _) (le_max_right _ _))
  have hbc : max b.length c.length ≤ max a.length (max b.length c.length) :=
    le_max_right _ _
  have hac : max a.length c.length ≤ max a.length (max b.length c.length) :=
    max_le (le_max_left _ _) (le_trans (le_max_right _ _) (le_max_right _ _))
  rw [version_compare_pad a b _ hab, cmpTuples_le_zero_iff] at h1
  rw [version_compare_pad b c _ hbc, cmpTuples_le_zero_iff] at h2
  rw [version_compare_pad a c _ hac, cmpTuples_le_zero_iff]
  rcases h1 with h1 | h1 <;> rcases h2 with h2 | h2
  · left; rw [h1, h2]
  · right; rw [h1]; exact h2
  · right; rw [← h2]; exact h1
  · right; exact lexLt_trans _ _ _ h1 h2

theorem version_compare_append_zero_left (a b : List Nat) :
    version_compare (a ++ [0]) b = version_compare a b := by
  have hl : (a ++ [0]).length = a.length + 1 := by simp
  have h1 : a.length + 1 ≤ max (a ++ [0]).length b.length := by
    rw [hl]; exact le_max_left _ _
  have h2 : max a.length b.length ≤ max (a ++ [0]).length b.length := by
    rw [hl]; exact max_le_max (by omega) le_rfl
  rw [version_compare_def (a ++ [0]) b, versionPad_append_zero a _ h1]
  exact (version_compare_pad a b _ h2).symm

theorem version_compare_append_zero_right (a b : List Nat) :
    version_compare a (b ++ [0]) = version_compare a b := by
  rw [version_compare_antisymm a (b ++ [0]), version_compare_antisymm a b,
    version_compare_append_zero_left]

-- ==================================================================
-- C6
-- ==================================================================

/-- C6: `version_compare` equals the lexicographic three-way comparison
(0, -1 or 1) of the two integer tuples after zero-padding the shorter one
to the longer length; it is antisymmetric and transitive, hence induces a
total order; and appending a `.0` component to either operand changes no
comparison result. -/
theorem claim_C6 (a b c : List Nat) :
    (version_compare a b = 0 ↔
      versionPad a (max a.length b.length) = versionPad b (max a.length b.length))
    ∧ (version_compare a b = -1 ↔
      lexLt (versionPad a (max a.length b.length))
        (versionPad b (max a.length b.length)) = true)
    ∧ (version_compare a b = 1 ↔
      lexLt (versionPad b (max a.length b.length))
        (versionPad a (max a.length b.length)) = true)
    ∧ (version_compare a b = 0 ∨ version_compare a b = -1 ∨ version_compare a b = 1)
    ∧ version_compare a b = -version_compare b a
    ∧ (version_compare a b ≤ 0 → version_compare b c ≤ 0 → version_compare a c ≤ 0)
    ∧ version_compare (a ++ [0]) b = version_compare a b
    ∧ version_compare a (b ++ [0]) = version_compare a b := by
  refine ⟨?_, ?_, ?_, ?_, ?_, ?_, ?_, ?_⟩
  · rw [version_compare_def]; exact cmpTuples_eq_zero_iff _ _
  · rw [version_compare_def]; exact cmpTuples_eq_negone_iff _ _
  · rw [version_compare_def]; exact cmpTuples_eq_one_iff _ _
  · rw [version_compare_def]; unfold cmpTuples; split_ifs <;> simp
  · exact version_compare_antisymm a b
  · exact version_compare_trans_le a b c
  · exact version_compare_append_zero_left a b
  · exact version_compare_append_zero_right a b

/-- Witness for C6: the transitivity component applied at the concrete
versions 1.0, 1 and 1.5. -/
theorem claim_C6_witness :
    version_compare [1, 0] [1] ≤ 0 ∧ version_compare [1] [1, 5] ≤ 0 ∧
      version_compare [1, 0] [1, 5] ≤ 0 := by
  refine ⟨by decide, by decide, ?_⟩
  exact (claim_C6 [1, 0] [1] [1, 5]).2.2.2.2.2.1 (by decide) (by decide)

-- ==================================================================
-- C4
-- ==================================================================

theorem default_spec_gcc (lk : Option String) (ver : List Nat) (lang : LangId) :
    ∃ s, get_default_std ⟨"gcc", lk, ver⟩ lang = Except.ok s ∧
      defaultStdSpec
        [ ⟨none, "gnu90", "gnu++98"⟩,
          ⟨some [5, 0, 0], "gnu11", "gnu++98"⟩,
          ⟨some [6, 0, 0], "gnu11", "gnu++14"⟩,
          ⟨some [11, 0, 0], "gnu17", "gnu++17"⟩,
          ⟨some [15, 0, 0], "gnu23", "gnu++17"⟩ ] ver lang s := by
  by_cases h15 : version_compare [15, 0, 0] ver ≤ 0
  · refine ⟨(⟨some [15, 0, 0], "gnu23", "gnu++17"⟩ : StdRow).std lang, ?_, ?_⟩
    · simp [get_default_std, defaultRows, std_default, defaultScanRev, h15]
    · left
      refine ⟨⟨some [15, 0, 0], "gnu23", "gnu++17"⟩, by simp, [15, 0, 0], rfl, h15, rfl, ?_⟩
      intro r2 hr2 m2 hm2 _
      fin_cases hr2
      · exact absurd hm2 (by simp)
      · injection hm2 with h; subst h; decide
      · injection hm2 with h; subst h; decide
      · injection hm2 with h; subst h; decide
      · injection hm2 with h; subst h; decide
  · by_cases h11 : version_compare [11, 0, 0] ver ≤ 0
    · refine ⟨(⟨some [11, 0, 0], "gnu17", "gnu++17"⟩ : StdRow).std lang, ?_, ?_⟩
      · simp [get_default_std, defaultRows, std_default, defaultScanRev, h15, h11]
      · left
        refine ⟨⟨some [11, 0, 0], "gnu17", "gnu++17"⟩, by simp, [11, 0, 0], rfl, h11, rfl, ?_⟩
        intro r2 hr2 m2 hm2 hle
        fin_cases hr2
        · exact absurd hm2 (by simp)
        · injection hm2 with h; subst h; decide
        · injection hm2 with h; subst h; decide
        · injection hm2 with h; subst h; decide
        · injection hm2 with h; subst h; exact absurd hle h15
    · by_cases h6 : version_compare [6, 0, 0] ver ≤ 0
      · refine ⟨(⟨some [6, 0, 0], "gnu11", "gnu++14"⟩ : StdRow).std lang, ?_, ?_⟩
        · simp [get_default_std, defaultRows, std_default, defaultScanRev, h15, h11, h6]
        · left
          refine ⟨⟨some [6, 0, 0], "gnu11", "gnu++14"⟩, by simp, [6, 0, 0], rfl, h6, rfl, ?_⟩
          intro r2 hr2 m2 hm2 hle
          fin_cases hr2
          · exact absurd hm2 (by simp)
          · injection hm2 with h; subst h; decide
          · injection hm2 with h; subst h; decide
          · injection hm2 with h; subst h; exact absurd hle h11
          · injection hm2 with h; subst h; exact absurd hle h15
      · by_cases h5 : version_compare [5, 0, 0] ver ≤ 0
        · refine ⟨(⟨some [5, 0, 0], "gnu11", "gnu++98"⟩ : StdRow).std lang, ?_, ?_⟩
          · simp [get_default_std, defaultRows, std_default, defaultScanRev, h15, h11, h6, h5]
          · left
            refine ⟨⟨some [5, 0, 0], "gnu11", "gnu++98"⟩, by simp, [5, 0, 0], rfl, h5, rfl, ?_⟩
            intro r2 hr2 m2 hm2 hle
            fin_cases hr2
            · exact absurd hm2 (by simp)
            · injection hm2 with h; subst h; decide
            · injection hm2 with h; subst h; exact absurd hle h6
            · injection hm2 with h; subst h; exact absurd hle h11
            · injection hm2 with h; subst h; exact absurd hle h15
        · refine ⟨(⟨none, "gnu90", "gnu++98"⟩ : StdRow).std lang, ?_, ?_⟩
          · simp [get_default_std, defaultRows, std_default, defaultScanRev, h15, h11, h6, h5]
          · right
            constructor
            · intro r hr m hm
              fin_cases hr
              · exact absurd hm (by simp)
              · injection hm with h; subst h; exact h5
              · injection hm with h; subst h; exact h6
              · injection hm with h; subst h; exact h11
              · injection hm with h; subst h; exact h15
            · exact ⟨_, rfl, rfl⟩

theorem default_spec_clang (lk : Option String) (ver : List Nat) (lang : LangId) :
    ∃ s, get_default_std ⟨"clang", lk, ver⟩ lang = Except.ok s ∧
      defaultStdSpec
        [ ⟨none, "gnu99", "gnu++98"⟩,
          ⟨some [3, 6, 0], "gnu11", "gnu++98"⟩,
          ⟨some [6, 0, 0], "gnu11", "gnu++14"⟩,
          ⟨some [11, 0, 0], "gnu17", "gnu++14"⟩,
          ⟨some [16, 0, 0], "gnu17", "gnu++17"⟩ ] ver lang s := by
  by_cases h16 : version_compare [16, 0, 0] ver ≤ 0
  · refine ⟨(⟨some [16, 0, 0], "gnu17", "gnu++17"⟩ : StdRow).std lang, ?_, ?_⟩
    · simp [get_default_std, defaultRows, std_default, defaultScanRev, h16]
    · left
      refine ⟨⟨some [16, 0, 0], "gnu17", "gnu++17"⟩, by simp, [16, 0, 0], rfl, h16, rfl, ?_⟩
      intro r2 hr2 m2 hm2 _
      fin_cases hr2
      · exact absurd hm2 (by simp)
      · injection hm2 with h; subst h; decide
      · injection hm2 with h; subst h; decide
      · injection hm2 with h; subst h; decide
      · injection hm2 with h; subst h; decide
  · by_cases h11 : version_compare [11, 0, 0] ver ≤ 0
    · refine ⟨(⟨some [11, 0, 0], "gnu17", "gnu++14"⟩ : StdRow).std lang, ?_, ?_⟩
      · simp [get_default_std, defaultRows, std_default, defaultScanRev, h16, h11]
      · left
        refine ⟨⟨some [11, 0, 0], "gnu17", "gnu++14"⟩, by simp, [11, 0, 0], rfl, h11, rfl, ?_⟩
        intro r2 hr2 m2 hm2 hle
        fin_cases hr2
        · exact absurd hm2 (by simp)
        · injection hm2 with h; subst h; decide
        · injection hm2 with h; subst h; decide
        · injection hm2 with h; subst h; decide
        · injection hm2 with h; subst h; exact absurd hle h16
    · by_cases h6 : version_compare [6, 0, 0] ver ≤ 0
      · refine ⟨(⟨some [6, 0, 0], "gnu11", "gnu++14"⟩ : StdRow).std lang, ?_, ?_⟩
        · simp [get_default_std, defaultRows, std_default, defaultScanRev, h16, h11, h6]
        · left
          refine ⟨⟨some [6, 0, 0], "gnu11", "gnu++14"⟩, by simp, [6, 0, 0], rfl, h6, rfl, ?_⟩
          intro r2 hr2 m2 hm2 hle
          fin_cases hr2
          · exact absurd hm2 (by simp)
          · injection hm2 with h; subst h; decide
          · injection hm2 with h; subst h; decide
          · injection hm2 with h; subst h; exact absurd hle h11
          · injection hm2 with h; subst h; exact absurd hle h16
      · by_cases h36 : version_compare [3, 6, 0] ver ≤ 0
        · refine ⟨(⟨some [3, 6, 0], "gnu11", "gnu++98"⟩ : StdRow).std lang, ?_, ?_⟩
          · simp [get_default_std, defaultRows, std_default, defaultScanRev, h16, h11, h6, h36]
          · left
            refine ⟨⟨some [3, 6, 0], "gnu11", "gnu++98"⟩, by simp, [3, 6, 0], rfl, h36, rfl, ?_⟩
            intro r2 hr2 m2 hm2 hle
            fin_cases hr2
            · exact absurd hm2 (by simp)
            · injection hm2 with h; subst h; decide
            · injection hm2 with h; subst h; exact absurd hle h6
            · injection hm2 with h; subst h; exact absurd hle h11
            · injection hm2 with h; subst h; exact absurd hle h16
        · refine ⟨(⟨none, "gnu99", "gnu++98"⟩ : StdRow).std lang, ?_, ?_⟩
          · simp [get_default_std, defaultRows, std_default, defaultScanRev, h16, h11, h6, h36]
          · right
            constructor
            · intro r hr m hm
              fin_cases hr
              · exact absurd hm (by simp)
              · injection hm with h; subst h; exact h36
              · injection hm with h; subst h; exact h6
              · injection hm with h; subst h; exact h11
              · injection hm with h; subst h; exact h16
            · exact ⟨_, rfl, rfl⟩

theorem default_spec_lcc (lk : Option String) (ver : List Nat) (lang : LangId) :
    ∃ s, get_default_std ⟨"lcc", lk, ver⟩ lang = Except.ok s ∧
      defaultStdSpec
        [ ⟨none, "gnu18", "gnu++14"⟩,
          ⟨some [1, 28, 0], "gnu18", "gnu++17"⟩ ] ver lang s := by
  by_cases h128 : version_compare [1, 28, 0] ver ≤ 0
  · refine ⟨(⟨some [1, 28, 0], "gnu18", "gnu++17"⟩ : StdRow).std lang, ?_, ?_⟩
    · simp [get_default_std, defaultRows, std_default, defaultScanRev, h128]
    · left
      refine ⟨⟨some [1, 28, 0], "gnu18", "gnu++17"⟩, by simp, [1, 28, 0], rfl, h128, rfl, ?_⟩
      intro r2 hr2 m2 hm2 _
      fin_cases hr2
      · exact absurd hm2 (by simp)
      · injection hm2 with h; subst h; decide
  · refine ⟨(⟨none, "gnu18", "gnu++14"⟩ : StdRow).std lang, ?_, ?_⟩
    · simp [get_default_std, defaultRows, std_default, defaultScanRev, h128]
    · right
      constructor
      · intro r hr m hm
        fin_cases hr
        · exact absurd hm (by simp)
        · injection hm with h; subst h; exact h128
      · exact ⟨_, rfl, rfl⟩

/-- C4: for every compiler id present in the default-standard table,
every language and every dotted-integer version, `get_default_std`
returns the standard of the row with the greatest min-version at most the
given version, falling back to the first (unversioned) row when no
versioned row qualifies; and the gcc table holds exactly the five claimed
rows. -/
theorem claim_C4 (c : CompilerId) (lang : LangId) (rows : List StdRow)
    (hrows : defaultRows c.id = some rows) :
    (∃ s, get_default_std c lang = Except.ok s ∧
      defaultStdSpec rows c.version lang s)
    ∧ defaultRows "gcc" = some
        [ ⟨none, "gnu90", "gnu++98"⟩,
          ⟨some [5, 0, 0], "gnu11", "gnu++98"⟩,
          ⟨some [6, 0, 0], "gnu11", "gnu++14"⟩,
          ⟨some [11, 0, 0], "gnu17", "gnu++17"⟩,
          ⟨some [15, 0, 0], "gnu23", "gnu++17"⟩ ] := by
  refine ⟨?_, by rfl⟩
  obtain ⟨cid, lk, ver⟩ := c
  by_cases h1 : cid = "lcc"
  · subst h1
    have hv : defaultRows "lcc" = some
        [ ⟨none, "gnu18", "gnu++14"⟩,
          ⟨some [1, 28, 0], "gnu18", "gnu++17"⟩ ] := by rfl
    rw [hv] at hrows
    injection hrows with h2
    subst h2
    exact default_spec_lcc lk ver lang
  · by_cases h2 : cid = "gcc"
    · subst h2
      have hv : defaultRows "gcc" = some
          [ ⟨none, "gnu90", "gnu++98"⟩,
            ⟨some [5, 0, 0], "gnu11", "gnu++98"⟩,
            ⟨some [6, 0, 0], "gnu11", "gnu++14"⟩,
            ⟨some [11, 0, 0], "gnu17", "gnu++17"⟩,
            ⟨some [15, 0, 0], "gnu23", "gnu++17"⟩ ] := by rfl
      rw [hv] at hrows
      injection hrows with h3
      subst h3
      exact default_spec_gcc lk ver lang
    · by_cases h3 : cid = "clang"
      · subst h3
        have hv : defaultRows "clang" = some
            [ ⟨none, "gnu99", "gnu++98"⟩,
              ⟨some [3, 6, 0], "gnu11", "gnu++98"⟩,
              ⟨some [6, 0, 0], "gnu11", "gnu++14"⟩,
              ⟨some [11, 0, 0], "gnu17", "gnu++14"⟩,
              ⟨some [16, 0, 0], "gnu17", "gnu++17"⟩ ] := by rfl
        rw [hv] at hrows
        injection hrows with h4
        subst h4
        exact default_spec_clang lk ver lang
      · exfalso
        have h1x : ¬ ("lcc" = cid) := fun hx => h1 hx.symm
        have h2x : ¬ ("gcc" = cid) := fun hx => h2 hx.symm
        have h3x : ¬ ("clang" = cid) := fun hx => h3 hx.symm
        simp [defaultRows, std_default, h1x, h2x, h3x] at hrows

/-- Witness for C4: gcc 11.5.0 with language C is served by the 11.0.0
row, whose standard is gnu17. -/
theorem claim_C4_witness :
    ∃ s, get_default_std ⟨"gcc", none, [11, 5, 0]⟩ LangId.c = Except.ok s ∧
      defaultStdSpec
        [ ⟨none, "gnu90", "gnu++98"⟩,
          ⟨some [5, 0, 0], "gnu11", "gnu++98"⟩,
          ⟨some [6, 0, 0], "gnu11", "gnu++14"⟩,
          ⟨some [11, 0, 0], "gnu17", "gnu++17"⟩,
          ⟨some [15, 0, 0], "gnu23", "gnu++17"⟩ ] [11, 5, 0] LangId.c s :=
  (claim_C4 ⟨"gcc", none, [11, 5, 0]⟩ LangId.c _ (by rfl)).1

-- ==================================================================
-- C1 and C5: get_source_metadata
-- ==================================================================

theorem get_ansi_std_isOk (c : CompilerId) (lang : LangId)
    (hid : c.id = "lcc" ∨ c.id = "gcc" ∨ c.id = "clang") :
    ∃ a, get_ansi_std c lang = Except.ok a := by
  obtain ⟨cid, lk, ver⟩ := c
  simp only at hid
  rcases hid with h | h | h <;> subst h <;> exact ⟨_, rfl⟩

theorem get_default_std_isOk (c : CompilerId) (lang : LangId)
    (hid : c.id = "lcc" ∨ c.id = "gcc" ∨ c.id = "clang") :
    ∃ d, get_default_std c lang = Except.ok d := by
  obtain ⟨cid, lk, ver⟩ := c
  simp only at hid
  rcases hid with h | h | h <;> subst h
  · obtain ⟨s, hs, _⟩ := default_spec_lcc lk ver lang
    exact ⟨s, hs⟩
  · obtain ⟨s, hs, _⟩ := default_spec_gcc lk ver lang
    exact ⟨s, hs⟩
  · obtain ⟨s, hs, _⟩ := default_spec_clang lk ver lang
    exact ⟨s, hs⟩

/-- C1: for every compiler command (non-empty argv, known compiler id,
successful `-std` scan) and every source argument with a SOURCE
extension, the effective language is C++ exactly when `argv[0]` contains
`++` and is otherwise the language of the source extension; and whenever
a `-std`/`--std` value is present whose language (C++ iff the value
contains `++`) differs from the effective language, the value is ignored
and the returned standard is the one produced by the default-standard
table (the `-ansi` branch additionally requires that no `-std` was given
at all, so after the drop the default rules decide). -/
theorem claim_C1 (cmd : CompilerCommand) (source : String) (arg0 : String)
    (restA : List String) (std : Option String) (file_lang : LangId) (langs : List LangId)
    (hargs : cmd.args = arg0 :: restA)
    (hscan : findStd cmd.args = Except.ok std)
    (hlook : lookupExt (splitextExt source) = some (FileType.source, file_lang :: langs))
    (hid : cmd.compiler.id = "lcc" ∨ cmd.compiler.id = "gcc" ∨ cmd.compiler.id = "clang") :
    ∃ m, get_source_metadata cmd source = Except.ok m ∧
      m.lang = (if hasPlusPlus arg0 then LangId.cxx else file_lang) ∧
      ∀ v, std = some v →
        (if hasPlusPlus v then LangId.cxx else LangId.c) ≠ m.lang →
        get_default_std cmd.compiler m.lang = Except.ok m.standard := by
  obtain ⟨pcwd, pcomp, pexe, pargs⟩ := cmd
  simp only at hargs hscan hid ⊢
  subst hargs
  obtain ⟨da, hda⟩ := get_ansi_std_isOk pcomp
    (if hasPlusPlus arg0 then LangId.cxx else file_lang) hid
  obtain ⟨dd, hdd⟩ := get_default_std_isOk pcomp
    (if hasPlusPlus arg0 then LangId.cxx else file_lang) hid
  by_cases hpp : hasPlusPlus arg0 = true
  all_goals simp only [hpp, if_true, if_false, Bool.false_eq_true] at hda hdd ⊢
  all_goals rcases std with _ | v0
  case pos.none =>
    by_cases hans : "-ansi" ∈ arg0 :: restA
    · rcases hda2 : da with _ | s
      · subst hda2
        refine ⟨⟨LangId.cxx, dd⟩, ?_, rfl, fun v hv => absurd hv (by simp)⟩
        simp [get_source_metadata, hscan, hlook, hpp, hans, hda, hdd]
      · subst hda2
        refine ⟨⟨LangId.cxx, s⟩, ?_, rfl, fun v hv => absurd hv (by simp)⟩
        simp [get_source_metadata, hscan, hlook, hpp, hans, hda]
    · refine ⟨⟨LangId.cxx, dd⟩, ?_, rfl, fun v hv => absurd hv (by simp)⟩
      simp [get_source_metadata, hscan, hlook, hpp, hans, hdd]
  case neg.none =>
    by_cases hans : "-ansi" ∈ arg0 :: restA
    · rcases hda2 : da with _ | s
      · subst hda2
        refine ⟨⟨file_lang, dd⟩, ?_, rfl, fun v hv => absurd hv (by simp)⟩
        simp [get_source_metadata, hscan, hlook, hpp, hans, hda, hdd]
      · subst hda2
        refine ⟨⟨file_lang, s⟩, ?_, rfl, fun v hv => absurd hv (by simp)⟩
        simp [get_source_metadata, hscan, hlook, hpp, hans, hda]
    · refine ⟨⟨file_lang, dd⟩, ?_, rfl, fun v hv => absurd hv (by simp)⟩
      simp [get_source_metadata, hscan, hlook, hpp, hans, hdd]
  case pos.some =>
    by_cases hsl : (if hasPlusPlus v0 = true then LangId.cxx else LangId.c) = LangId.cxx
    · refine ⟨⟨LangId.cxx, v0⟩, ?_, rfl, fun v hv hne => by
        injection hv with hv2; subst hv2; exact absurd hsl hne⟩
      simp [get_source_metadata, hscan, hlook, hpp, hsl, Option.map]
    · refine ⟨⟨LangId.cxx, dd⟩, ?_, rfl, fun v hv hne => hdd⟩
      simp [get_source_metadata, hscan, hlook, hpp, hsl, hdd, Option.map]
  case neg.some =>
    by_cases hsl : (if hasPlusPlus v0 = true then LangId.cxx else LangId.c) = file_lang
    · refine ⟨⟨file_lang, v0⟩, ?_, rfl, fun v hv hne => by
        injection hv with hv2; subst hv2; exact absurd hsl hne⟩
      simp [get_source_metadata, hscan, hlook, hpp, hsl, Option.map]
    · refine ⟨⟨file_lang, dd⟩, ?_, rfl, fun v hv hne => hdd⟩
      simp [get_source_metadata, hscan, hlook, hpp, hsl, hdd, Option.map]

/-- Witness for C1: `g++ -std=c99 x.cpp` under gcc 11.5.0 - the frontend
language C++ wins and the mismatched C standard is dropped. -/
theorem claim_C1_witness :
    ∃ m, get_source_metadata
        ⟨⟨true, ["b"]⟩, ⟨"gcc", none, [11, 5, 0]⟩, "/usr/bin/g++",
          ["g++", "-std=c99", "x.cpp"]⟩ "x.cpp" = Except.ok m ∧
      m.lang = (if hasPlusPlus "g++" then LangId.cxx else LangId.cxx) ∧
      ∀ v, (some "c99" : Option String) = some v →
        (if hasPlusPlus v then LangId.cxx else LangId.c) ≠ m.lang →
        get_default_std ⟨"gcc", none, [11, 5, 0]⟩ m.lang = Except.ok m.standard :=
  claim_C1 ⟨⟨true, ["b"]⟩, ⟨"gcc", none, [11, 5, 0]⟩, "/usr/bin/g++",
      ["g++", "-std=c99", "x.cpp"]⟩ "x.cpp" "g++" ["-std=c99", "x.cpp"]
    (some "c99") LangId.cxx [] (by rfl) (by decide) (by decide)
    (Or.inr (Or.inl rfl))

/-- C5 counterexample: `gcc -std=c++11 -ansi x.c` drops the mismatched
`-std=c++11`, yet the returned standard is the default `gnu17`, not the
ansi-table entry `c90` - the ansi branch is skipped whenever any `-std`
option was present. -/
theorem claim_C5_counterexample :
    get_source_metadata
      ⟨⟨true, ["b"]⟩, ⟨"gcc", none, [11, 5, 0]⟩, "/usr/bin/gcc",
        ["gcc", "-std=c++11", "-ansi", "x.c"]⟩ "x.c"
      = Except.ok ⟨LangId.c, "gnu17"⟩ ∧
    get_ansi_std ⟨"gcc", none, [11, 5, 0]⟩ LangId.c = Except.ok (some "c90") ∧
    (⟨LangId.c, "gnu17"⟩ : SourceFileCompilerMetadata) ≠ ⟨LangId.c, "c90"⟩ :=
  ⟨by decide, by decide, by decide⟩

/-- C5 amended: when the `-std` scan finds nothing at all, argv contains
`-ansi`, and the ansi table has an entry for (compiler id, effective
language), `get_source_metadata` returns that entry as the standard.
(The original claim also covered the case of a dropped mismatched `-std`;
the code skips the ansi branch there.) -/
theorem claim_C5_amended (cmd : CompilerCommand) (source : String) (arg0 : String)
    (restA : List String) (file_lang : LangId) (langs : List LangId) (s : String)
    (hargs : cmd.args = arg0 :: restA)
    (hscan : findStd cmd.args = Except.ok none)
    (hlook : lookupExt (splitextExt source) = some (FileType.source, file_lang :: langs))
    (hansi : "-ansi" ∈ cmd.args)
    (hentry : get_ansi_std cmd.compiler
        (if hasPlusPlus arg0 then LangId.cxx else file_lang) = Except.ok (some s)) :
    get_source_metadata cmd source =
      Except.ok ⟨if hasPlusPlus arg0 then LangId.cxx else file_lang, s⟩ := by
  obtain ⟨pcwd, pcomp, pexe, pargs⟩ := cmd
  simp only at hargs hscan hansi hentry ⊢
  subst hargs
  by_cases hpp : hasPlusPlus arg0 = true
  all_goals simp only [hpp, if_true, if_false, Bool.false_eq_true] at hentry ⊢
  · simp [get_source_metadata, hscan, hlook, hpp, hansi, hentry]
  · simp [get_source_metadata, hscan, hlook, hpp, hansi, hentry]

/-- Witness for C5 (amended): `gcc -ansi x.c` yields standard `c90`. -/
theorem claim_C5_amended_witness :
    get_source_metadata
      ⟨⟨true, ["b"]⟩, ⟨"gcc", none, [11, 5, 0]⟩, "/usr/bin/gcc",
        ["gcc", "-ansi", "x.c"]⟩ "x.c" = Except.ok ⟨LangId.c, "c90"⟩ :=
  claim_C5_amended ⟨⟨true, ["b"]⟩, ⟨"gcc", none, [11, 5, 0]⟩, "/usr/bin/gcc",
      ["gcc", "-ansi", "x.c"]⟩ "x.c" "gcc" ["-ansi", "x.c"] LangId.c [] "c90"
    (by rfl) (by decide) (by decide) (by decide) (by decide)

-- ==================================================================
-- C10: the --std lookahead
-- ==================================================================

theorem findStd_total : ∀ args : List String,
    (∀ i, args[i]? = some "--std" → (args[i + 1]?).isSome) →
    ∃ r, findStd args = Except.ok r
  | [], _ => ⟨none, rfl⟩
  | a :: rest, h => by
    cases hsv : stdArgValue a with
    | some v => exact ⟨some v, by simp [findStd, hsv]⟩
    | none =>
      by_cases ha : a = "--std"
      · subst ha
        have h0 := h 0 (by simp)
        cases hr : rest with
        | nil =>
          rw [hr] at h0
          simp at h0
        | cons v vs => exact ⟨some v, by simp [findStd, hsv, hr]⟩
      · have h2 : ∀ i, rest[i]? = some "--std" → (rest[i + 1]?).isSome := by
          intro i hi
          have h3 := h (i + 1) (by simpa using hi)
          simpa using h3
        obtain ⟨r, hrec⟩ := findStd_total rest h2
        exact ⟨r, by simp [findStd, hsv, ha, hrec]⟩

/-- C10: the `-std` scan of `get_source_metadata` reads `args[i+1]` when
`args[i] = "--std"`; under the precondition that every occurrence of
`--std` is followed by a further argument the scan is total (no
IndexError), and the precondition is necessary: on an argv ending in
`--std` the lookahead falls outside the list. -/
theorem claim_C10 (args : List String)
    (h : ∀ i, args[i]? = some "--std" → (args[i + 1]?).isSome) :
    (∃ r, findStd args = Except.ok r)
    ∧ findStd ["gcc", "--std"] = Except.error "IndexError: list index out of range" :=
  ⟨findStd_total args h, by decide⟩

/-- Witness for C10 at the argv `clang --std c11`. -/
theorem claim_C10_witness :
    (∃ r, findStd ["clang", "--std", "c11"] = Except.ok r)
    ∧ findStd ["gcc", "--std"] = Except.error "IndexError: list index out of range" :=
  claim_C10 ["clang", "--std", "c11"] (fun i hi => by
    match i with
    | 0 => simp at hi
    | 1 => simp
    | 2 => simp at hi
    | n + 3 => simp at hi)

-- ==================================================================
-- C2: make_preprocessor_command
-- ==================================================================

/-- C2: for a supported compiler family, the preprocessor rewrite removes
every argument equal to a discovered source, splices `-E -o <result>`
over the two-element window at the first `-o` of the remaining list (or
inserts it right after `argv[0]` when there is no `-o`), appends the
selected source last, and leaves the other command fields unchanged; and
when `-E` is already among the arguments the call fails.  The embedding
is pure, so the input command is unchanged by construction (the source
deep-copies before rewriting). -/
theorem claim_C2 (cmd : CompilerCommand) (rf : String) (idx : Nat)
    (sources : List String) (src : String)
    (hid : ∃ i ∈ cmd.compiler.ids, i ∈ preprocessor_ids)
    (hsrc : sources[idx]? = some src) :
    (("-E" : String) ∉ cmd.args →
      ∃ cmd2, make_preprocessor_command cmd rf idx sources = Except.ok cmd2 ∧
        cmd2.cwd = cmd.cwd ∧ cmd2.compiler = cmd.compiler ∧
        cmd2.executable = cmd.executable ∧
        (∀ i, (cmd.args.filter (fun a => !(sources.contains a))).findIdx?
            (fun a => a = "-o") = some i →
          cmd2.args =
            (cmd.args.filter (fun a => !(sources.contains a))).take i ++
              ["-E", "-o", rf] ++
              (cmd.args.filter (fun a => !(sources.contains a))).drop (i + 2) ++ [src]) ∧
        ((cmd.args.filter (fun a => !(sources.contains a))).findIdx?
            (fun a => a = "-o") = none →
          cmd2.args =
            (cmd.args.filter (fun a => !(sources.contains a))).take 1 ++
              ["-E", "-o", rf] ++
              (cmd.args.filter (fun a => !(sources.contains a))).drop 1 ++ [src]))
    ∧ (("-E" : String) ∈ cmd.args → ("-E" : String) ∉ sources →
        make_preprocessor_command cmd rf idx sources =
          Except.error "-E already present in args") := by
  obtain ⟨q, hq⟩ : ∃ q, cmd.compiler.ids.find?
      (fun i => preprocessor_ids.contains i) = some q := by
    obtain ⟨i, hmem, hin⟩ := hid
    have h2 : (cmd.compiler.ids.find? (fun i => preprocessor_ids.contains i)).isSome := by
      rw [List.find?_isSome]
      exact ⟨i, hmem, by simpa using hin⟩
    exact Option.isSome_iff_exists.mp h2
  constructor
  · intro hnoE
    have hnoEA : ("-E" : String) ∉ cmd.args.filter (fun a => !(sources.contains a)) :=
      fun hmem => hnoE (List.mem_of_mem_filter hmem)
    cases ho : (cmd.args.filter (fun a => !(sources.contains a))).findIdx?
        (fun a => a = "-o") with
    | some i =>
      refine ⟨{ cmd with args :=
          (cmd.args.filter (fun a => !(sources.contains a))).take i ++
            ["-E", "-o", rf] ++
            (cmd.args.filter (fun a => !(sources.contains a))).drop (i + 2) ++
            [src] }, ?_, rfl, rfl, rfl, ?_, ?_⟩
      · simp only [make_preprocessor_command, hq, ho, hsrc]
        rw [if_neg (fun hc => hnoEA (by simpa using hc))]
      · intro j hj
        injection hj with hj
        subst hj
        rfl
      · intro hnone
        exact Option.noConfusion hnone
    | none =>
      refine ⟨{ cmd with args :=
          (cmd.args.filter (fun a => !(sources.contains a))).take 1 ++
            ["-E", "-o", rf] ++
            (cmd.args.filter (fun a => !(sources.contains a))).drop 1 ++
            [src] }, ?_, rfl, rfl, rfl, ?_, ?_⟩
      · simp only [make_preprocessor_command, hq, ho, hsrc]
        rw [if_neg (fun hc => hnoEA (by simpa using hc))]
      · intro j hj
        exact Option.noConfusion hj
      · intro _
        rfl
  · intro hEin hEnotsrc
    have hEA : ("-E" : String) ∈ cmd.args.filter (fun a => !(sources.contains a)) :=
      List.mem_filter.mpr ⟨hEin, by simpa using hEnotsrc⟩
    simp only [make_preprocessor_command, hq]
    rw [if_pos (by simpa using hEA)]

/-- Witness for C2: `gcc -O2 -o a.out a.c`, preprocessed path `/st/p.i`:
the rewrite yields `gcc -O2 -E -o /st/p.i a.c`, and with `-E` present the
call fails. -/
theorem claim_C2_witness :
    (("-E" : String) ∉ ["gcc", "-O2", "-o", "a.out", "a.c"] →
      ∃ cmd2, make_preprocessor_command
          ⟨⟨true, ["b"]⟩, ⟨"gcc", none, [11, 5, 0]⟩, "/usr/bin/gcc",
            ["gcc", "-O2", "-o", "a.out", "a.c"]⟩ "/st/p.i" 0 ["a.c"] = Except.ok cmd2 ∧
        cmd2.cwd = ⟨true, ["b"]⟩ ∧ cmd2.compiler = ⟨"gcc", none, [11, 5, 0]⟩ ∧
        cmd2.executable = "/usr/bin/gcc" ∧
        (∀ i, ((["gcc", "-O2", "-o", "a.out", "a.c"] : List String).filter
            (fun a => !((["a.c"] : List String).contains a))).findIdx?
            (fun a => a = "-o") = some i →
          cmd2.args =
            ((["gcc", "-O2", "-o", "a.out", "a.c"] : List String).filter
              (fun a => !((["a.c"] : List String).contains a))).take i ++
              ["-E", "-o", "/st/p.i"] ++
              ((["gcc", "-O2", "-o", "a.out", "a.c"] : List String).filter
                (fun a => !((["a.c"] : List String).contains a))).drop (i + 2) ++ ["a.c"]) ∧
        (((["gcc", "-O2", "-o", "a.out", "a.c"] : List String).filter
            (fun a => !((["a.c"] : List String).contains a))).findIdx?
            (fun a => a = "-o") = none →
          cmd2.args =
            ((["gcc", "-O2", "-o", "a.out", "a.c"] : List String).filter
              (fun a => !((["a.c"] : List String).contains a))).take 1 ++
              ["-E", "-o", "/st/p.i"] ++
              ((["gcc", "-O2", "-o", "a.out", "a.c"] : List String).filter
                (fun a => !((["a.c"] : List String).contains a))).drop 1 ++ ["a.c"]))
    ∧ (("-E" : String) ∈ ["gcc", "-O2", "-o", "a.out", "a.c"] →
        ("-E" : String) ∉ ["a.c"] →
        make_preprocessor_command
          ⟨⟨true, ["b"]⟩, ⟨"gcc", none, [11, 5, 0]⟩, "/usr/bin/gcc",
            ["gcc", "-O2", "-o", "a.out", "a.c"]⟩ "/st/p.i" 0 ["a.c"] =
          Except.error "-E already present in args") :=
  claim_C2 ⟨⟨true, ["b"]⟩, ⟨"gcc", none, [11, 5, 0]⟩, "/usr/bin/gcc",
      ["gcc", "-O2", "-o", "a.out", "a.c"]⟩ "/st/p.i" 0 ["a.c"] "a.c"
    ⟨"gcc", by decide, by decide⟩ (by decide)

-- ==================================================================
-- C3: the compiler-call prefilter
-- ==================================================================

/-- C3: the prefilter keeps exactly the calls that exited zero, opened at
least one file, and whose canonical command tuple occurs exactly once in
the whole input list; in particular any multiplicity of at least two
removes the call even when it exited zero. -/
theorem claim_C3 (calls : List CompilerCall) (cc : CompilerCall) :
    (cc ∈ compiler_calls_prefilter calls ↔
      (cc ∈ calls ∧ cc.exitcode = some 0 ∧ cc.open_files ≠ [] ∧
        calls.countP (fun c2 => decide (c2.command.asTuple = cc.command.asTuple)) = 1))
    ∧ (2 ≤ calls.countP (fun c2 => decide (c2.command.asTuple = cc.command.asTuple)) →
        cc ∉ compiler_calls_prefilter calls) := by
  have hiff : cc ∈ compiler_calls_prefilter calls ↔
      (cc ∈ calls ∧ cc.exitcode = some 0 ∧ cc.open_files ≠ [] ∧
        calls.countP (fun c2 => decide (c2.command.asTuple = cc.command.asTuple)) = 1) := by
    unfold compiler_calls_prefilter
    rw [List.mem_filter]
    constructor
    · rintro ⟨hmem, hp⟩
      rw [Bool.and_eq_true, Bool.and_eq_true] at hp
      obtain ⟨⟨h1, h2⟩, h3⟩ := hp
      refine ⟨hmem, by simpa using h1, ?_, by simpa using h3⟩
      intro hnil
      rw [hnil] at h2
      simp at h2
    · rintro ⟨hmem, h1, h2, h3⟩
      refine ⟨hmem, ?_⟩
      rw [Bool.and_eq_true, Bool.and_eq_true]
      refine ⟨⟨by simpa using h1, ?_⟩, by simpa using h3⟩
      cases hof : cc.open_files with
      | nil => exact absurd hof h2
      | cons a l => simp [hof]
  refine ⟨hiff, fun h2c hmem => ?_⟩
  have hcount := (hiff.mp hmem).2.2.2
  omega

/-- Witness for C3: two identical successful `gcc a.c` calls are both
removed by the prefilter. -/
theorem claim_C3_witness :
    (⟨10, some 0,
        ⟨⟨true, ["b"]⟩, ⟨"gcc", none, [11, 5, 0]⟩, "/usr/bin/gcc", ["gcc", "a.c"]⟩,
        [(⟨true, ["b"]⟩, [SCArg.str "a.c", SCArg.str "O_RDONLY"])]⟩ : CompilerCall) ∉
      compiler_calls_prefilter
        [⟨10, some 0,
            ⟨⟨true, ["b"]⟩, ⟨"gcc", none, [11, 5, 0]⟩, "/usr/bin/gcc", ["gcc", "a.c"]⟩,
            [(⟨true, ["b"]⟩, [SCArg.str "a.c", SCArg.str "O_RDONLY"])]⟩,
         ⟨11, some 0,
            ⟨⟨true, ["b"]⟩, ⟨"gcc", none, [11, 5, 0]⟩, "/usr/bin/gcc", ["gcc", "a.c"]⟩,
            [(⟨true, ["b"]⟩, [SCArg.str "a.c", SCArg.str "O_RDONLY"])]⟩] :=
  (claim_C3 _ _).2 (by decide)

-- ==================================================================
-- C7: parser invariants
-- ==================================================================

theorem updStart_isSome (o : Option Rat) (v : Rat) : (updStart o v).isSome = true := by
  cases o <;> rfl

theorem updTs_inv (s e : Option Rat) (ts : Rat)
    (h1 : s = none ↔ e = none) (h2 : ∀ a b, s = some a → e = some b → a ≤ b) :
    ((updStart s ts = none ↔ updEnd e ts = none) ∧
     (∀ a b, updStart s ts = some a → updEnd e ts = some b → a ≤ b)) := by
  cases s with
  | none =>
    have he : e = none := h1.mp rfl
    subst he
    constructor
    · simp [updStart, updEnd]
    · intro a b ha hb
      simp only [updStart, updEnd] at ha hb
      injection ha with ha
      injection hb with hb
      subst ha
      subst hb
      exact le_refl ts
  | some x =>
    cases e with
    | none => exact absurd (h1.mpr rfl) (by simp)
    | some y =>
      have hxy : x ≤ y := h2 x y rfl rfl
      constructor
      · simp [updStart, updEnd]
      · intro a b ha hb
        simp only [updStart, updEnd] at ha hb
        injection ha with ha
        injection hb with hb
        subst ha
        subst hb
        exact le_trans (min_le_left x ts)
          (le_trans hxy (le_max_left y ts))

theorem parseLinesGo_spec : ∀ (lines : List StraceLine) (proc p : ProcTrace),
    parseLinesGo lines proc = Except.ok p →
    ((∀ sc ∈ proc.syscall, 0 ≤ sc.returnvalue) →
      ∀ sc ∈ p.syscall, 0 ≤ sc.returnvalue)
    ∧ (((proc.ts_start = none ↔ proc.ts_end = none) ∧
        (∀ a b, proc.ts_start = some a → proc.ts_end = some b → a ≤ b)) →
       ((p.ts_start = none ↔ p.ts_end = none) ∧
        (∀ a b, p.ts_start = some a → p.ts_end = some b → a ≤ b)))
    ∧ ((proc.ts_start.isSome = true ∨ (∃ l ∈ lines, l ≠ StraceLine.noMatch)) →
       p.ts_start.isSome = true)
  | [], proc, p, h => by
    simp only [parseLinesGo] at h
    injection h with h
    subst h
    refine ⟨fun hp => hp, fun ht => ht, fun hor => ?_⟩
    rcases hor with hs | ⟨l, hl, _⟩
    · exact hs
    · simp at hl
  | StraceLine.noMatch :: rest, proc, p, h => by
    simp only [parseLinesGo] at h
    obtain ⟨h1, h2, h3⟩ := parseLinesGo_spec rest proc p h
    refine ⟨h1, h2, fun hor => h3 ?_⟩
    rcases hor with hs | ⟨l, hl, hne⟩
    · exact Or.inl hs
    · rcases List.mem_cons.mp hl with rfl | hl2
      · exact absurd rfl hne
      · exact Or.inr ⟨l, hl2, hne⟩
  | StraceLine.killed ts sig :: rest, proc, p, h => by
    simp only [parseLinesGo] at h
    obtain ⟨h1, h2, h3⟩ := parseLinesGo_spec rest _ p h
    refine ⟨fun hp => h1 (by simpa using hp), fun ht => h2 ?_,
      fun _ => h3 (Or.inl (by simpa using updStart_isSome proc.ts_start ts))⟩
    have h4 := updTs_inv proc.ts_start proc.ts_end ts ht.1 ht.2
    simpa using h4
  | StraceLine.exited ts code :: rest, proc, p, h => by
    simp only [parseLinesGo] at h
    obtain ⟨h1, h2, h3⟩ := parseLinesGo_spec rest _ p h
    refine ⟨fun hp => h1 (by simpa using hp), fun ht => h2 ?_,
      fun _ => h3 (Or.inl (by simpa using updStart_isSome proc.ts_start ts))⟩
    have h4 := updTs_inv proc.ts_start proc.ts_end ts ht.1 ht.2
    simpa using h4
  | StraceLine.syscall ts name rv rfile err payload :: rest, proc, p, h => by
    simp only [parseLinesGo] at h
    cases hd : decodeArgs name payload with
    | error e =>
      rw [hd] at h
      exact Except.noConfusion h
    | ok pr =>
      obtain ⟨args, araw⟩ := pr
      simp only [hd] at h
      by_cases hrv : sysCallFilterAllow ⟨ts, name, rv, rfile, err, araw, args⟩ = true
      · rw [if_pos hrv] at h
        obtain ⟨h1, h2, h3⟩ := parseLinesGo_spec rest _ p h
        refine ⟨fun hp => h1 ?_, fun ht => h2 ?_,
          fun _ => h3 (Or.inl (by simpa using updStart_isSome proc.ts_start ts))⟩
        · intro sc0 hsc0
          have hsc1 : sc0 ∈ proc.syscall ∨
              sc0 = ⟨ts, name, rv, rfile, err, araw, args⟩ := by simpa using hsc0
          rcases hsc1 with hmem | hmem
          · exact hp sc0 hmem
          · subst hmem
            simp only [sysCallFilterAllow, Bool.not_eq_true'] at hrv
            simp only [decide_eq_false_iff_not, not_lt] at hrv
            exact hrv
        · have h4 := updTs_inv proc.ts_start proc.ts_end ts ht.1 ht.2
          simpa using h4
      · rw [if_neg hrv] at h
        obtain ⟨h1, h2, h3⟩ := parseLinesGo_spec rest _ p h
        refine ⟨fun hp => h1 (by simpa using hp), fun ht => h2 ?_,
          fun _ => h3 (Or.inl (by simpa using updStart_isSome proc.ts_start ts))⟩
        have h4 := updTs_inv proc.ts_start proc.ts_end ts ht.1 ht.2
        simpa using h4

/-- C7: every trace returned by the parser stores only records with a
non-negative return value (failed calls are dropped), the stored records
are sorted non-decreasingly by timestamp, and as soon as any line of the
file matched the grammar, both timestamps are set with
`ts_start <= ts_end`. -/
theorem claim_C7 (pid : Int) (lines : List StraceLine) (p : ProcTrace)
    (hok : parse_fd pid lines = Except.ok p)
    (hmatched : ∃ l ∈ lines, l ≠ StraceLine.noMatch) :
    (∀ sc ∈ p.syscall, 0 ≤ sc.returnvalue)
    ∧ List.Sorted tsLE p.syscall
    ∧ ∃ a b, p.ts_start = some a ∧ p.ts_end = some b ∧ a ≤ b := by
  unfold parse_fd at hok
  cases hgo : parseLinesGo lines ⟨pid, none, none, none, none, []⟩ with
  | error e =>
    rw [hgo] at hok
    exact Except.noConfusion hok
  | ok q =>
    rw [hgo] at hok
    injection hok with hok
    subst hok
    obtain ⟨h1, h2, h3⟩ := parseLinesGo_spec lines _ q hgo
    have hrv := h1 (by simp)
    have hts := h2 (by simp)
    have hsome := h3 (Or.inr hmatched)
    refine ⟨?_, ?_, ?_⟩
    · intro sc hsc
      have hmem : sc ∈ q.syscall :=
        (List.perm_insertionSort tsLE q.syscall).mem_iff.mp (by simpa using hsc)
      exact hrv sc hmem
    · simpa using List.sorted_insertionSort tsLE q.syscall
    · obtain ⟨a, ha⟩ := Option.isSome_iff_exists.mp hsome
      have hne : ¬ q.ts_end = none := by
        intro hend
        have := hts.1.mpr hend
        rw [ha] at this
        exact Option.noConfusion this
      obtain ⟨b, hb⟩ := Option.ne_none_iff_exists.mp hne
      exact ⟨a, b, by simpa using ha, by simpa using hb.symm, hts.2 a b ha hb.symm⟩

/-- Witness for C7 on a three-line trace: a failed open is dropped, the
records come out sorted, and the timestamps bracket the matched lines. -/
theorem claim_C7_witness :
    ∃ p, parse_fd 42
        [ StraceLine.noMatch,
          StraceLine.syscall 5 "chdir" 0 none none (ArgsPayload.chdirA "/tmp"),
          StraceLine.syscall 3 "open" (-1) none (some ("ENOENT", "nf"))
            (ArgsPayload.openA "x" "O_RDONLY" none),
          StraceLine.exited 9 0 ] = Except.ok p ∧
      ((∀ sc ∈ p.syscall, 0 ≤ sc.returnvalue)
        ∧ List.Sorted tsLE p.syscall
        ∧ ∃ a b, p.ts_start = some a ∧ p.ts_end = some b ∧ a ≤ b) := by
  refine ⟨⟨42, some 3, some 9, some 0, none,
    [⟨5, "chdir", 0, none, none, none, [SCArg.str "/tmp"]⟩]⟩, by decide, ?_⟩
  exact claim_C7 42
    [ StraceLine.noMatch,
      StraceLine.syscall 5 "chdir" 0 none none (ArgsPayload.chdirA "/tmp"),
      StraceLine.syscall 3 "open" (-1) none (some ("ENOENT", "nf"))
        (ArgsPayload.openA "x" "O_RDONLY" none),
      StraceLine.exited 9 0 ]
    ⟨42, some 3, some 9, some 0, none,
      [⟨5, "chdir", 0, none, none, none, [SCArg.str "/tmp"]⟩]⟩
    (by decide) ⟨StraceLine.exited 9 0, by decide, by decide⟩

-- ==================================================================
-- C8: root-pid selection
-- ==================================================================

theorem pyMinByTs_spec : ∀ (l : List ProcTrace) (acc : ProcTrace) (ka : Rat),
    acc.ts_start = some ka →
    (∀ t ∈ l, t.ts_start.isSome = true) →
    ∃ r kr, pyMinByTs acc l = Except.ok r ∧ r.ts_start = some kr ∧
      kr ≤ ka ∧ (∀ u ∈ l, ∀ b, u.ts_start = some b → kr ≤ b) ∧
      (r = acc ∨ ∃ i : Nat, l[i]? = some r ∧ kr < ka ∧
        (∀ j : Nat, j < i → ∀ u : ProcTrace, l[j]? = some u →
          ∀ b, u.ts_start = some b → kr < b))
  | [], acc, ka, hacc, _ => by
    refine ⟨acc, ka, rfl, hacc, le_refl ka, ?_, Or.inl rfl⟩
    intro u hu
    simp at hu
  | t :: ts, acc, ka, hacc, hl => by
    obtain ⟨kt, hkt⟩ := Option.isSome_iff_exists.mp (hl t (by simp))
    have hrec : pyMinByTs acc (t :: ts) = pyMinByTs (if kt < ka then t else acc) ts := by
      simp only [pyMinByTs, hkt, hacc]
    by_cases hlt : kt < ka
    · rw [if_pos hlt] at hrec
      obtain ⟨r, kr, h1, h2, h3, h4, h5⟩ :=
        pyMinByTs_spec ts t kt hkt (fun u hu => hl u (by simp [hu]))
      refine ⟨r, kr, by rw [hrec]; exact h1, h2, le_of_lt (lt_of_le_of_lt h3 hlt), ?_, ?_⟩
      · intro u hu b hb
        rcases List.mem_cons.mp hu with heq | hu2
        · subst heq
          rw [hkt] at hb
          injection hb with hb
          subst hb
          exact h3
        · exact h4 u hu2 b hb
      · right
        rcases h5 with heq | ⟨i, hi, hlt2, hstrict⟩
        · subst heq
          refine ⟨0, by simp, ?_, ?_⟩
          · rw [hkt] at h2
            injection h2 with h2
            subst h2
            exact hlt
          · intro j hj
            omega
        · refine ⟨i + 1, by simpa using hi, lt_trans hlt2 hlt, ?_⟩
          intro j hj u hu b hb
          cases j with
          | zero =>
            rw [List.getElem?_cons_zero] at hu
            injection hu with hu
            subst hu
            rw [hkt] at hb
            injection hb with hb
            subst hb
            exact hlt2
          | succ j2 =>
            rw [List.getElem?_cons_succ] at hu
            exact hstrict j2 (by omega) u hu b hb
    · rw [if_neg hlt] at hrec
      have hka : ka ≤ kt := le_of_not_lt hlt
      obtain ⟨r, kr, h1, h2, h3, h4, h5⟩ :=
        pyMinByTs_spec ts acc ka hacc (fun u hu => hl u (by simp [hu]))
      refine ⟨r, kr, by rw [hrec]; exact h1, h2, h3, ?_, ?_⟩
      · intro u hu b hb
        rcases List.mem_cons.mp hu with heq | hu2
        · subst heq
          rw [hkt] at hb
          injection hb with hb
          subst hb
          exact le_trans h3 hka
        · exact h4 u hu2 b hb
      · rcases h5 with heq | ⟨i, hi, hlt2, hstrict⟩
        · exact Or.inl heq
        · right
          refine ⟨i + 1, by simpa using hi, hlt2, ?_⟩
          intro j hj u hu b hb
          cases j with
          | zero =>
            rw [List.getElem?_cons_zero] at hu
            injection hu with hu
            subst hu
            rw [hkt] at hb
            injection hb with hb
            subst hb
            exact lt_of_lt_of_le hlt2 hka
          | succ j2 =>
            rw [List.getElem?_cons_succ] at hu
            exact hstrict j2 (by omega) u hu b hb

/-- C8 counterexample: two traces share the minimal `ts_start`; the store
selects the first-loaded one (pid 5), not the smallest pid (3). -/
theorem claim_C8_counterexample :
    strace_root_pid
        [⟨5, some 1, some 2, some 0, none, []⟩,
         ⟨3, some 1, some 2, some 0, none, []⟩] = Except.ok 5 ∧
    (5 : Int) ≠ 3 ∧
    (⟨3, some 1, some 2, some 0, none, []⟩ : ProcTrace).ts_start =
      (⟨5, some 1, some 2, some 0, none, []⟩ : ProcTrace).ts_start :=
  ⟨by decide, by decide, by decide⟩

/-- C8 amended: after loading a non-empty set of traces (each with a set
start timestamp), the selected root PID is the PID of a trace minimizing
`ts_start`; a tie between several minimizers is broken by load order -
the first-loaded minimizer wins - not by the smallest PID. -/
theorem claim_C8_amended (traces : List ProcTrace)
    (hne : traces ≠ [])
    (hall : ∀ t ∈ traces, t.ts_start.isSome = true) :
    ∃ (r : ProcTrace) (i : Nat) (a : Rat), strace_root_pid traces = Except.ok r.pid ∧
      traces[i]? = some r ∧ r.ts_start = some a ∧
      (∀ u ∈ traces, ∀ b, u.ts_start = some b → a ≤ b) ∧
      (∀ j : Nat, j < i → ∀ u : ProcTrace, traces[j]? = some u →
        ∀ b, u.ts_start = some b → a < b) := by
  cases htr : traces with
  | nil => exact absurd htr hne
  | cons t ts =>
    subst htr
    obtain ⟨ka, hka⟩ := Option.isSome_iff_exists.mp (hall t (by simp))
    obtain ⟨r, kr, h1, h2, h3, h4, h5⟩ :=
      pyMinByTs_spec ts t ka hka (fun u hu => hall u (by simp [hu]))
    have hroot : strace_root_pid (t :: ts) = Except.ok r.pid := by
      simp only [strace_root_pid, h1]
    rcases h5 with heq | ⟨i, hi, hlt2, hstrict⟩
    · subst heq
      refine ⟨r, 0, kr, hroot, by simp, h2, ?_, fun j hj => by omega⟩
      intro u hu b hb
      rcases List.mem_cons.mp hu with heq2 | hu2
      · subst heq2
        rw [h2] at hb
        injection hb with hb
        subst hb
        exact le_refl kr
      · exact h4 u hu2 b hb
    · refine ⟨r, i + 1, kr, hroot, by simpa using hi, h2, ?_, ?_⟩
      · intro u hu b hb
        rcases List.mem_cons.mp hu with heq2 | hu2
        · subst heq2
          rw [hka] at hb
          injection hb with hb
          subst hb
          exact h3
        · exact h4 u hu2 b hb
      · intro j hj u hu b hb
        cases j with
        | zero =>
          rw [List.getElem?_cons_zero] at hu
          injection hu with hu
          subst hu
          rw [hka] at hb
          injection hb with hb
          subst hb
          exact hlt2
        | succ j2 =>
          rw [List.getElem?_cons_succ] at hu
          exact hstrict j2 (by omega) u hu b hb

/-- Witness for C8 (amended) at two concrete traces with distinct start
timestamps. -/
theorem claim_C8_amended_witness :
    ∃ (r : ProcTrace) (i : Nat) (a : Rat), strace_root_pid
        [⟨7, some 9, some 9, some 0, none, []⟩,
         ⟨3, some 1, some 2, some 0, none, []⟩] = Except.ok r.pid ∧
      ([⟨7, some 9, some 9, some 0, none, []⟩,
        ⟨3, some 1, some 2, some 0, none, []⟩] : List ProcTrace)[i]? = some r ∧
      r.ts_start = some a ∧
      (∀ u ∈ ([⟨7, some 9, some 9, some 0, none, []⟩,
        ⟨3, some 1, some 2, some 0, none, []⟩] : List ProcTrace),
        ∀ b, u.ts_start = some b → a ≤ b) ∧
      (∀ j : Nat, j < i → ∀ u : ProcTrace, ([⟨7, some 9, some 9, some 0, none, []⟩,
        ⟨3, some 1, some 2, some 0, none, []⟩] : List ProcTrace)[j]? = some u →
        ∀ b, u.ts_start = some b → a < b) :=
  claim_C8_amended
    [⟨7, some 9, some 9, some 0, none, []⟩, ⟨3, some 1, some 2, some 0, none, []⟩]
    (by decide) (fun t ht => by
      rcases List.mem_cons.mp ht with heq | ht2
      · subst heq
        rfl
      · rcases List.mem_cons.mp ht2 with heq2 | ht3
        · subst heq2
          rfl
        · simp at ht3)

-- ==================================================================
-- C9: the walker's working-directory updates
-- ==================================================================

/-- C9 counterexample: walking `chdir("..")` then `open("f.c")` from
`/a/b` attributes the open to base `/a/b/..` - the `..` component is kept
verbatim, not normalized to `/a`. -/
theorem claim_C9_counterexample :
    walkGo (fun _ _ => none)
        [(1, ⟨1, some 0, some 1, some 0, none,
          [⟨0, "chdir", 0, none, none, none, [SCArg.str ".."]⟩,
           ⟨1, "open", 3, none, none, none, [SCArg.str "f.c", SCArg.str "O_RDONLY"]⟩]⟩)]
        5 1 ⟨true, ["a", "b"]⟩ true
      = Except.ok ([], [(⟨true, ["a", "b", ".."]⟩,
          [SCArg.str "f.c", SCArg.str "O_RDONLY"])])
    ∧ (⟨true, ["a", "b", ".."]⟩ : PyPath) ≠ ⟨true, ["a"]⟩ :=
  ⟨by decide, by decide⟩

/-- C9 amended: in the walker, `chdir(path)` and `fchdir(fd, path)`
update the working directory to the pathlib join of the current cwd and
the path - an absolute path replaces the cwd entirely, empty and `.`
components are dropped, but `..` components are appended verbatim (not
normalized away) - and the joined cwd is the base against which
subsequently opened files are resolved. -/
theorem claim_C9_amended
    (recurse : Int → PyPath → Bool → Except String (List CompilerCall × List OpenRec))
    (procMap : List (Int × ProcTrace)) (procPid : Int) (procExit : Option Int)
    (matchC : String → List String → Option CompilerId)
    (ts : Rat) (rv : Int) (rfile : Option String) (err : Option (String × String))
    (araw : Option String) (fd : Int) (p : String) (rest : List SysCallEntity)
    (cwd : PyPath) (inside : Bool) (callOpt : Option CompilerCall)
    (calls : List CompilerCall) (opens : List OpenRec) :
    walkSys recurse procMap procPid procExit matchC
        (⟨ts, "chdir", rv, rfile, err, araw, [SCArg.str p]⟩ :: rest)
        cwd inside callOpt calls opens
      = walkSys recurse procMap procPid procExit matchC rest
          (joinPath cwd (parsePath p)) inside callOpt calls opens
    ∧ walkSys recurse procMap procPid procExit matchC
        (⟨ts, "fchdir", rv, rfile, err, araw, [SCArg.fdPath fd p]⟩ :: rest)
        cwd inside callOpt calls opens
      = walkSys recurse procMap procPid procExit matchC rest
          (joinPath cwd (parsePath p)) inside callOpt calls opens
    ∧ ((parsePath p).root = true → joinPath cwd (parsePath p) = parsePath p)
    ∧ joinPath cwd (parsePath "..") = ⟨cwd.root, cwd.parts ++ [".."]⟩ := by
  refine ⟨rfl, rfl, ?_, rfl⟩
  intro h
  simp [joinPath, h]

/-- Witness for C9 (amended): an absolute `chdir("/x")` replaces the
working directory `/a`. -/
theorem claim_C9_amended_witness :
    walkSys (fun _ _ _ => Except.ok ([], [])) [] 1 (some 0) (fun _ _ => none)
        (⟨0, "chdir", 0, none, none, none, [SCArg.str "/x"]⟩ :: [])
        ⟨true, ["a"]⟩ true none [] []
      = walkSys (fun _ _ _ => Except.ok ([], [])) [] 1 (some 0) (fun _ _ => none) []
          (joinPath ⟨true, ["a"]⟩ (parsePath "/x")) true none [] []
    ∧ joinPath ⟨true, ["a"]⟩ (parsePath "/x") = parsePath "/x" := by
  have h := claim_C9_amended (fun _ _ _ => Except.ok ([], [])) [] 1 (some 0)
    (fun _ _ => none) 0 0 none none none 3 "/x" [] ⟨true, ["a"]⟩ true none [] []
  exact ⟨h.1, h.2.2.1 (by decide)⟩
